import Mathlib

set_option maxRecDepth 100000

/-!
Shallow embedding of the `lenovo-throttling-rust` daemon, covering the parts of
`src/main.rs`, `src/msr.rs` and `src/power.rs` that the specification's claims
speak about: the temperature-target codec, the RAPL power-limit planner with its
time-window quantization table, the MSR bit-range extraction helper, the
power-source change monitor, and the startup/error-propagation structure of
`main`.

Modelling conventions:
* Rust `u64` values are natural numbers; wrap-around arithmetic is made
  explicit with `% 2 ^ 64` (release-build semantics), and a separate checked
  subtraction mirrors the debug-build underflow panic.
* Rust `f64` quantities (`power_unit`, `time_unit`, durations, the time-limit
  table) are modelled in `ℚ`. Every `f64` value the program manipulates here is
  a product of a small integer and a power of two well inside the 53-bit
  mantissa range, where `f64` arithmetic and comparison are exact, so the
  rational model agrees with the floating-point computation. Rust's
  `f64::round` (half away from zero) agrees with `round : ℚ → ℤ` on the
  non-negative values that occur.
* Fallible operations return `Except`/`Option`; an `unwrap` panic is the
  `none`/`panicked` branch.
-/

namespace Throttling

/-! ## Power-source monitor (src/power.rs) -/

/-- Current power state (src/power.rs, `PowerState`). -/
inductive PowerState where
  | AC
  | Battery
deriving DecidableEq, Repr

/-- One reading step of the power-source monitor (src/power.rs lines 47-53,
and identically lines 92-95 of the D-Bus path): given the tracked
`current_state` and a newly read `new_state`, the monitor sends the new state
and updates the tracked state only when the two differ. The result is the new
tracked state paired with the optional emission. -/
def monitor_step (current_state new_state : PowerState) :
    PowerState × Option PowerState :=
  if new_state ≠ current_state then (new_state, some new_state)
  else (current_state, none)

/-- The emissions produced by the monitor loop over a sequence of successive
indicator readings (src/power.rs lines 44-59). -/
def monitor_run (current_state : PowerState) : List PowerState → List PowerState
  | [] => []
  | s :: rest =>
    match monitor_step current_state s with
    | (c, some e) => e :: monitor_run c rest
    | (c, none) => monitor_run c rest

/-! ## MSR access helpers (src/msr.rs) -/

/-- Bit-range extraction performed by `ReadMsrBuilder::extract_bits`
(src/msr.rs lines 32-44): with a mask `(from_bit, to_bit)` the bitmask is the
sum of `2 ^ b` for `b` in the half-open Rust range `from_bit..to_bit`, and the
masked value is shifted down by `from_bit`. Without a mask the value is
returned unchanged. -/
def extract_bits (mask : Option (ℕ × ℕ)) (val : ℕ) : ℕ :=
  match mask with
  | none => val
  | some (from_bit, to_bit) =>
    let m : ℕ := ((List.range' from_bit (to_bit - from_bit)).map
      (fun b => 2 ^ b)).sum
    (val &&& m) >>> from_bit

/-! ## Temperature-target codec (src/main.rs lines 124-160) -/

/-- Wrapping 64-bit subtraction: the behaviour of Rust `u64` subtraction in a
release build. -/
def wsub64 (a b : ℕ) : ℕ := (a + (2 ^ 64 - b % 2 ^ 64)) % 2 ^ 64

/-- Checked 64-bit subtraction: `none` is the underflow panic of a Rust debug
build. -/
def csub64 (a b : ℕ) : Option ℕ := if b ≤ a then some (a - b) else none

/-- The new `MSR_TEMPERATURE_TARGET` value computed by `build_msr_updates`
(src/main.rs lines 146-154) from the configured maximum temperature and the
register value read from MSR `0x1A2`. -/
def temp_new_value (max_temp_c msr_value : ℕ) : ℕ :=
  let critical_temp := (msr_value >>> 16) &&& 0b11111111
  let max_temp := min max_temp_c (wsub64 critical_temp 3)
  let mask := (wsub64 critical_temp max_temp &&& 0b111111) <<< 24
  (msr_value &&& 0b11000000111111111111111111111111) ||| mask

/-- The same computation with checked subtractions, mirroring the underflow
panic a debug build would raise in src/main.rs lines 149 and 153. -/
def temp_new_value_checked (max_temp_c msr_value : ℕ) : Option ℕ :=
  let critical_temp := (msr_value >>> 16) &&& 0b11111111
  match csub64 critical_temp 3 with
  | none => none
  | some headroom =>
    let max_temp := min max_temp_c headroom
    match csub64 critical_temp max_temp with
    | none => none
    | some delta =>
      some ((msr_value &&& 0b11000000111111111111111111111111)
        ||| ((delta &&& 0b111111) <<< 24))

/-! ## Power-limit planner (src/main.rs lines 190-335) -/

/-- The table of encodable time-window limits (src/main.rs lines 264-276): for
every `y ∈ [0, 31]` and `z ∈ [0, 3]` the limit `2^y · (1 + z/4) · time_unit`,
enumerated with `y` outer and `z` inner and then sorted ascending by the limit
itself (`sort_by` is a stable sort; insertion sort is stable and sorts by the
same ordering, so it produces the identical list). -/
def time_limits (time_unit : ℚ) : List (ℚ × ℕ × ℕ) :=
  let arr : List (ℚ × ℕ × ℕ) := (List.range 32).flatMap (fun (y : ℕ) =>
    (List.range 4).map (fun (z : ℕ) =>
      ((2 : ℚ) ^ y * (1 + (z : ℚ) / 4) * time_unit, y, z)))
  arr.insertionSort (fun a b => a.1 ≤ b.1)

/-- Time-window quantization: the ascending scan of src/main.rs lines 289-292,
returning the `(y, z)` pair of the first table entry whose limit is at least
`duration`. A `none` result is the `unwrap` panic of line 292: no entry was
found. -/
def quantize (tl : List (ℚ × ℕ × ℕ)) (duration : ℚ) : Option (ℕ × ℕ) :=
  (tl.find? (fun e => decide (duration ≤ e.1))).map (fun e => (e.2.1, e.2.2))

/-- The `do_mask` closure (src/main.rs lines 285-315): quantize the duration,
pack the time window as `y | (z << 5)`, compute the power limit as
`round(tdp / power_unit)`, clear the bits of the pattern
`0b111111100111111111111111` shifted by `offset` from the accumulator, and OR
in `(pl | (1 << 15) | tw << 17) << offset`. `none` is the quantization panic. -/
def do_mask (power_unit : ℚ) (tl : List (ℚ × ℕ × ℕ)) (tdp : ℕ) (duration : ℚ)
    (offset : ℕ) (new_power_limit : ℕ) : Option ℕ :=
  match quantize tl duration with
  | none => none
  | some (y, z) =>
    let tw : ℕ := y ||| (z <<< 5)
    let pl : ℕ := (round ((tdp : ℚ) / power_unit)).toNat
    let clear : ℕ := (2 ^ 64 - 1) ^^^ ((0b111111100111111111111111 <<< offset) % 2 ^ 64)
    let set : ℕ := ((pl ||| (1 <<< 15) ||| (tw <<< 17)) <<< offset) % 2 ^ 64
    some ((new_power_limit &&& clear) ||| set)

/-- Configuration for one power mode (src/main.rs, `ModeConfig`). -/
structure ModeConfig where
  update_rate_sec : Option ℕ := none
  pl1_tdp_w : Option ℕ := none
  pl1_duration : Option ℚ := none
  pl2_tdp_w : Option ℕ := none
  pl2_duration : Option ℚ := none
  maximum_temp_c : Option ℕ := none
  hwp_mode : Option Bool := none
deriving Repr

/-- A non-configuration failure of the planner: a register read error
propagated by `?` out of `build_msr_updates`, or an `unwrap` panic. -/
inductive PlanFailure where
  | ioError (msg : String)
  | panicked
deriving DecidableEq, Repr

/-- The `MSR_TEMPERATURE_TARGET` block of `build_msr_updates`
(src/main.rs lines 124-160): if a maximum temperature is configured, read MSR
`0x1A2` (propagating a read failure) and unconditionally push the update pair
`(0x1A2, temp_new_value ...)`. -/
def temp_updates (conf : ModeConfig) (read_msr : ℕ → Except String ℕ) :
    Except PlanFailure (List (ℕ × ℕ)) :=
  match conf.maximum_temp_c with
  | none => .ok []
  | some max_temp =>
    match read_msr 0x1A2 with
    | .error e => .error (.ioError e)
    | .ok msr_value => .ok [(0x1A2, temp_new_value max_temp msr_value)]

/-- Application of `do_mask` for power-limit window 1 at bit offset 0, when
both its fields are configured (src/main.rs lines 318-323). -/
def apply_pl1 (conf : ModeConfig) (power_unit : ℚ) (tl : List (ℚ × ℕ × ℕ))
    (npl : ℕ) : Option ℕ :=
  match conf.pl1_tdp_w, conf.pl1_duration with
  | some tdp, some duration => do_mask power_unit tl tdp duration 0 npl
  | _, _ => some npl

/-- Application of `do_mask` for power-limit window 2 at bit offset 32, when
both its fields are configured (src/main.rs lines 324-329). -/
def apply_pl2 (conf : ModeConfig) (power_unit : ℚ) (tl : List (ℚ × ℕ × ℕ))
    (npl : ℕ) : Option ℕ :=
  match conf.pl2_tdp_w, conf.pl2_duration with
  | some tdp, some duration => do_mask power_unit tl tdp duration 32 npl
  | _, _ => some npl

/-- The accumulated `new_power_limit` value (src/main.rs lines 190-330):
units decoded from the RAPL unit register (`power_unit = 2^-(bits 0:3)`,
`time_unit = 2^-(bits 16:19)`), both configured windows folded in sequence
into the value seeded from the last read of MSR `0x610`. -/
def new_power_limit_value (conf : ModeConfig) (rapl_power_unit initial_power_limit : ℕ) :
    Option ℕ :=
  let power_unit : ℚ := 1 / 2 ^ (rapl_power_unit &&& 0b1111)
  let time_unit : ℚ := 1 / 2 ^ ((rapl_power_unit >>> 16) &&& 0b1111)
  let tl := time_limits time_unit
  match apply_pl1 conf power_unit tl initial_power_limit with
  | none => none
  | some npl1 => apply_pl2 conf power_unit tl npl1

/-- `build_msr_updates` (src/main.rs lines 119-340), parameterized by the
result of reading each MSR on CPU 0: the temperature update (if configured),
then the RAPL unit and package power-limit reads, then the folded power-limit
value, pushed only when it differs from the value read from `0x610`. -/
def build_msr_updates (conf : ModeConfig) (read_msr : ℕ → Except String ℕ) :
    Except PlanFailure (List (ℕ × ℕ)) :=
  match temp_updates conf read_msr with
  | .error e => .error e
  | .ok tus =>
    match read_msr 0x606 with
    | .error e => .error (.ioError e)
    | .ok rapl_power_unit =>
      match read_msr 0x610 with
      | .error e => .error (.ioError e)
      | .ok initial_power_limit =>
        match new_power_limit_value conf rapl_power_unit initial_power_limit with
        | none => .error .panicked
        | some npl =>
          .ok (tus ++ (if npl ≠ initial_power_limit
            then [(0x610, npl)] else []))

/-! ## Startup and write application (src/main.rs lines 57-108) -/

/-- The two mode configurations of the daemon (src/main.rs, `Config`). -/
structure Config where
  battery : ModeConfig
  ac : ModeConfig

/-- Outcome of the startup portion of `main` (src/main.rs lines 57-68): a
configuration read error prints and returns; a planner failure for either mode
hits `.unwrap()` and panics the process; otherwise both update lists are
available and the event loop runs. -/
inductive MainOutcome where
  | config_error
  | panicked
  | running (msr_updates_battery msr_updates_ac : List (ℕ × ℕ))
deriving DecidableEq, Repr

/-- The startup control flow of `main` (src/main.rs lines 57-68). -/
def main_startup (config : Except String Config)
    (read_msr : ℕ → Except String ℕ) : MainOutcome :=
  match config with
  | .error _ => .config_error
  | .ok c =>
    match build_msr_updates c.battery read_msr with
    | .error _ => .panicked
    | .ok b =>
      match build_msr_updates c.ac read_msr with
      | .error _ => .panicked
      | .ok a => .running b a

/-- The MSR write loop of `main` (src/main.rs lines 102-107): every update in
the batch is attempted in order; a failed write is only reported, never stops
the loop. The result records, per update, the register and whether its write
succeeded. -/
def write_msr_updates (write_msr : ℕ → ℕ → Except String Unit)
    (msr_updates : List (ℕ × ℕ)) : List (ℕ × Bool) :=
  msr_updates.map (fun u => (u.1, (write_msr u.1 u.2).toBool))

/-! ## Concrete register snapshots used as test inputs -/

/-- A register snapshot whose temperature-target register already carries the
trip value the planner would compute (critical 100 in bits 16-23, trip delta
10 in bits 24-29). -/
def regs_trip_already_set : ℕ → Except String ℕ := fun msr =>
  if msr = 0x1A2 then .ok ((10 <<< 24) ||| (100 <<< 16))
  else if msr = 0x606 then .ok 0
  else if msr = 0x610 then .ok 0
  else .error "unused register"

/-- A register snapshot with all-zero unit and power-limit registers
(power unit 1 W, time unit 1 s, empty power-limit seed). -/
def regs_zero : ℕ → Except String ℕ := fun msr =>
  if msr = 0x606 then .ok 0
  else if msr = 0x610 then .ok 0
  else .error "unused register"

/-- A mode configuration that only sets power-limit window 1:
10 W for 1 second. -/
def conf_pl1_only : ModeConfig := { pl1_tdp_w := some 10, pl1_duration := some 1 }

/-! ## Arithmetic helper lemmas -/

lemma wsub64_eq_sub {a b : ℕ} (hba : b ≤ a) (ha : a < 2 ^ 64) :
    wsub64 a b = a - b := by
  unfold wsub64
  have hb : b < 2 ^ 64 := lt_of_le_of_lt hba ha
  rw [Nat.mod_eq_of_lt hb]
  omega

lemma and63_lt_two_pow_six (x : ℕ) : x &&& 63 < 2 ^ 6 :=
  lt_of_le_of_lt Nat.and_le_right (by norm_num)

/-! ## Bit-level behaviour of the temperature codec -/

lemma temp_or_testBit_low (m x i : ℕ) (hi : i < 24) :
    ((m &&& 0b11000000111111111111111111111111)
      ||| ((x &&& 0b111111) <<< 24)).testBit i = m.testBit i := by
  rw [Nat.testBit_or, Nat.testBit_and, Nat.testBit_shiftLeft]
  have hge : decide (i ≥ 24) = false := by
    simp only [ge_iff_le, decide_eq_false_iff_not, not_le]
    omega
  have hC : Nat.testBit 0b11000000111111111111111111111111 i = true := by
    interval_cases i <;> decide
  rw [hC, hge]
  simp

lemma temp_or_testBit_30 (m x : ℕ) :
    ((m &&& 0b11000000111111111111111111111111)
      ||| ((x &&& 0b111111) <<< 24)).testBit 30 = m.testBit 30 := by
  rw [Nat.testBit_or, Nat.testBit_and, Nat.testBit_shiftLeft]
  have hx : (x &&& 63).testBit (30 - 24) = false :=
    Nat.testBit_lt_two_pow (and63_lt_two_pow_six x)
  have hC : Nat.testBit 0b11000000111111111111111111111111 30 = true := by decide
  rw [hx, hC]
  simp

lemma temp_or_testBit_31 (m x : ℕ) :
    ((m &&& 0b11000000111111111111111111111111)
      ||| ((x &&& 0b111111) <<< 24)).testBit 31 = m.testBit 31 := by
  rw [Nat.testBit_or, Nat.testBit_and, Nat.testBit_shiftLeft]
  have hx : (x &&& 63).testBit (31 - 24) = false :=
    Nat.testBit_lt_two_pow
      (lt_of_lt_of_le (and63_lt_two_pow_six x) (by norm_num))
  have hC : Nat.testBit 0b11000000111111111111111111111111 31 = true := by decide
  rw [hx, hC]
  simp

lemma temp_or_testBit_top (m x i : ℕ) (hi : 32 ≤ i) :
    ((m &&& 0b11000000111111111111111111111111)
      ||| ((x &&& 0b111111) <<< 24)).testBit i = false := by
  rw [Nat.testBit_or, Nat.testBit_and, Nat.testBit_shiftLeft]
  have hC : Nat.testBit 0b11000000111111111111111111111111 i = false :=
    Nat.testBit_lt_two_pow (lt_of_lt_of_le (by norm_num)
      (Nat.pow_le_pow_right (by norm_num) hi))
  have hx : (x &&& 63).testBit (i - 24) = false :=
    Nat.testBit_lt_two_pow (lt_of_lt_of_le (and63_lt_two_pow_six x)
      (Nat.pow_le_pow_right (by norm_num) (by omega)))
  rw [hC, hx]
  simp

lemma temp_field_extract (m x : ℕ) :
    ((((m &&& 0b11000000111111111111111111111111)
        ||| ((x &&& 0b111111) <<< 24)) >>> 24) &&& 0b111111)
      = x &&& 0b111111 := by
  apply Nat.eq_of_testBit_eq
  intro i
  rw [Nat.testBit_and, Nat.testBit_and, Nat.testBit_shiftRight]
  by_cases hi : i < 6
  · have h63 : Nat.testBit 63 i = true := by interval_cases i <;> decide
    rw [h63, Bool.and_true, Bool.and_true]
    rw [Nat.testBit_or, Nat.testBit_and, Nat.testBit_shiftLeft]
    have hC : Nat.testBit 0b11000000111111111111111111111111 (24 + i) = false := by
      interval_cases i <;> decide
    have hge : decide (24 + i ≥ 24) = true := by simp
    have hsub : 24 + i - 24 = i := by omega
    rw [hC, hge, hsub, Bool.and_false, Bool.false_or, Bool.true_and,
      Nat.testBit_and, h63, Bool.and_true]
  · have h63 : Nat.testBit 63 i = false := by
      apply Nat.testBit_lt_two_pow
      calc (63 : ℕ) < 2 ^ 6 := by norm_num
      _ ≤ 2 ^ i := Nat.pow_le_pow_right (by norm_num) (by omega)
    rw [h63, Bool.and_false, Bool.and_false]

/-! ## Claim theorems: the temperature codec -/

/-- C1 (counterexample): the claim that every bit outside [24:29] is preserved
fails: on the register value `(1 <<< 33) ||| (100 <<< 16)` (critical
temperature 100, bit 33 set) with configured maximum 90, bit 33 of the
computed new value is cleared even though it is set in the input. -/
theorem C1_preservation_cex :
    Nat.testBit ((1 <<< 33) ||| (100 <<< 16) : ℕ) 33 = true
    ∧ Nat.testBit (temp_new_value 90 ((1 <<< 33) ||| (100 <<< 16))) 33 = false := by
  constructor
  · decide
  · decide

/-- C1 (amended): the new temperature-target register value agrees with the
input on bits 0-23 and on bits 30 and 31, and every bit from 32 upward is
cleared to zero (the 32-bit AND literal of src/main.rs line 154 truncates the
upper half of the 64-bit register instead of preserving it). -/
theorem C1_upper_half_cleared (max_temp_c msr_value : ℕ) :
    (∀ i, i < 24 →
      (temp_new_value max_temp_c msr_value).testBit i = msr_value.testBit i)
    ∧ ((temp_new_value max_temp_c msr_value).testBit 30 = msr_value.testBit 30)
    ∧ ((temp_new_value max_temp_c msr_value).testBit 31 = msr_value.testBit 31)
    ∧ (∀ i, 32 ≤ i → (temp_new_value max_temp_c msr_value).testBit i = false) :=
  ⟨fun i hi => temp_or_testBit_low msr_value _ i hi,
   temp_or_testBit_30 msr_value _,
   temp_or_testBit_31 msr_value _,
   fun i hi => temp_or_testBit_top msr_value _ i hi⟩

/-- C1 (witness): the amended statement at the counterexample's input: bit 0
is preserved and bit 35 is cleared. -/
theorem C1_upper_half_cleared_witness :
    (Nat.testBit (temp_new_value 90 ((1 <<< 33) ||| (100 <<< 16))) 0
      = Nat.testBit ((1 <<< 33) ||| (100 <<< 16) : ℕ) 0)
    ∧ Nat.testBit (temp_new_value 90 ((1 <<< 33) ||| (100 <<< 16))) 35 = false :=
  ⟨(C1_upper_half_cleared 90 ((1 <<< 33) ||| (100 <<< 16))).1 0 (by norm_num),
   (C1_upper_half_cleared 90 ((1 <<< 33) ||| (100 <<< 16))).2.2.2 35 (by norm_num)⟩

/-- C8: when a maximum temperature is configured and the critical-temperature
field (bits 16-23) is at least 3, the value carried by bits 24-29 of the new
register value equals `(critical - min(configured, critical - 3)) & 63`, the
trip delta against the effective target. -/
theorem C8_trip_delta_field (max_temp_c msr_value : ℕ)
    (h : 3 ≤ (msr_value >>> 16) &&& 0b11111111) :
    ((temp_new_value max_temp_c msr_value >>> 24) &&& 0b111111)
      = (((msr_value >>> 16) &&& 0b11111111)
          - min max_temp_c (((msr_value >>> 16) &&& 0b11111111) - 3))
        &&& 0b111111 := by
  have hc : (msr_value >>> 16) &&& 0b11111111 < 2 ^ 64 :=
    lt_of_le_of_lt Nat.and_le_right (by norm_num)
  have h3 : wsub64 ((msr_value >>> 16) &&& 0b11111111) 3
      = ((msr_value >>> 16) &&& 0b11111111) - 3 := wsub64_eq_sub h hc
  have hmin : min max_temp_c (((msr_value >>> 16) &&& 0b11111111) - 3)
      ≤ (msr_value >>> 16) &&& 0b11111111 :=
    le_trans (min_le_right _ _) (Nat.sub_le _ _)
  have h2 : wsub64 ((msr_value >>> 16) &&& 0b11111111)
        (min max_temp_c (((msr_value >>> 16) &&& 0b11111111) - 3))
      = ((msr_value >>> 16) &&& 0b11111111)
        - min max_temp_c (((msr_value >>> 16) &&& 0b11111111) - 3) :=
    wsub64_eq_sub hmin hc
  show ((((msr_value &&& 0b11000000111111111111111111111111)
      ||| ((wsub64 ((msr_value >>> 16) &&& 0b11111111)
            (min max_temp_c (wsub64 ((msr_value >>> 16) &&& 0b11111111) 3))
          &&& 0b111111) <<< 24)) >>> 24) &&& 0b111111) = _
  rw [h3, h2, temp_field_extract]

/-- C8 (witness): for critical temperature 100 (register `100 <<< 16`) and
configured maximum 90 the trip field carries
`(100 - min 90 97) & 63 = 10 = 0b001010`. -/
theorem C8_trip_delta_field_witness :
    ((temp_new_value 90 (100 <<< 16) >>> 24) &&& 0b111111) = 0b001010 := by
  rw [C8_trip_delta_field 90 (100 <<< 16) (by decide)]
  decide

/-- C10: whenever the critical-temperature field (bits 16-23) of the register
value is at least 3, neither 64-bit subtraction of the temperature planner
underflows: the checked computation succeeds and agrees with the wrapping
one, so the planner is a total function of its inputs under this
precondition. -/
theorem C10_no_underflow (max_temp_c msr_value : ℕ)
    (h : 3 ≤ (msr_value >>> 16) &&& 0b11111111) :
    temp_new_value_checked max_temp_c msr_value
      = some (temp_new_value max_temp_c msr_value) := by
  have hc : (msr_value >>> 16) &&& 0b11111111 < 2 ^ 64 :=
    lt_of_le_of_lt Nat.and_le_right (by norm_num)
  have h3 : wsub64 ((msr_value >>> 16) &&& 0b11111111) 3
      = ((msr_value >>> 16) &&& 0b11111111) - 3 := wsub64_eq_sub h hc
  have hmin : min max_temp_c (((msr_value >>> 16) &&& 0b11111111) - 3)
      ≤ (msr_value >>> 16) &&& 0b11111111 :=
    le_trans (min_le_right _ _) (Nat.sub_le _ _)
  have h2 : wsub64 ((msr_value >>> 16) &&& 0b11111111)
        (min max_temp_c (((msr_value >>> 16) &&& 0b11111111) - 3))
      = ((msr_value >>> 16) &&& 0b11111111)
        - min max_temp_c (((msr_value >>> 16) &&& 0b11111111) - 3) :=
    wsub64_eq_sub hmin hc
  have e1 : csub64 ((msr_value >>> 16) &&& 0b11111111) 3
      = some (((msr_value >>> 16) &&& 0b11111111) - 3) := by
    unfold csub64; rw [if_pos h]
  have e2 : csub64 ((msr_value >>> 16) &&& 0b11111111)
        (min max_temp_c (((msr_value >>> 16) &&& 0b11111111) - 3))
      = some (((msr_value >>> 16) &&& 0b11111111)
          - min max_temp_c (((msr_value >>> 16) &&& 0b11111111) - 3)) := by
    unfold csub64; rw [if_pos hmin]
  simp only [temp_new_value_checked, temp_new_value, e1, e2, h3, h2]

/-- C10 (witness): the checked planner succeeds on critical temperature 100
with configured maximum 90. -/
theorem C10_no_underflow_witness :
    3 ≤ ((100 <<< 16 : ℕ) >>> 16) &&& 0b11111111
    ∧ temp_new_value_checked 90 (100 <<< 16)
        = some (temp_new_value 90 (100 <<< 16)) :=
  ⟨by decide, C10_no_underflow 90 (100 <<< 16) (by decide)⟩

/-! ## Claim theorems: MSR bit extraction and the power monitor -/

/-- C6: the claim of an inclusive bit range fails in the code: `extract_bits`
sums the bitmask over the half-open range `from_bit..to_bit`, so bit `to` is
dropped. At mask `(0, 1)` and value 2 the code returns 0, while an inclusive
range `[0, 1]` (the comment's stated intent) would return 2, bit 1 included. -/
theorem C6_extract_upper_exclusive :
    extract_bits (some (0, 1)) 2 = 0 ∧ Nat.testBit 2 1 = true := by
  constructor
  · decide
  · decide

/-- C7: the power-source monitor emits exactly on change: a reading step emits
`some new` iff the new state differs from the tracked one (and nothing
otherwise), the tracked state follows emissions; consequently the reading
sequence `[AC, AC, Battery, Battery, AC]` from tracked state `AC` emits
exactly `[Battery, AC]`. -/
theorem C7_monitor_dedup :
    (∀ c n, ((monitor_step c n).2 = some n ↔ n ≠ c)
      ∧ ((monitor_step c n).2 = none ↔ n = c)
      ∧ (monitor_step c n).1 = (if n ≠ c then n else c))
    ∧ monitor_run .AC [.AC, .AC, .Battery, .Battery, .AC] = [.Battery, .AC] := by
  constructor
  · intro c n
    cases c <;> cases n <;> simp [monitor_step]
  · rfl

/-- C7 (witness): a differing reading emits. -/
theorem C7_monitor_dedup_witness :
    (monitor_step PowerState.AC PowerState.Battery).2 = some PowerState.Battery :=
  (C7_monitor_dedup.1 PowerState.AC PowerState.Battery).1.mpr (by decide)

/-! ## The time-window quantization table -/

lemma mem_time_limits {tu : ℚ} {e : ℚ × ℕ × ℕ} :
    e ∈ time_limits tu ↔
      ∃ (y : ℕ) (z : ℕ), y < 32 ∧ z < 4 ∧
        e = (((2 : ℚ) ^ y * (1 + (z : ℚ) / 4) * tu, y, z) : ℚ × ℕ × ℕ) := by
  unfold time_limits
  rw [(List.perm_insertionSort _ _).mem_iff]
  constructor
  · intro h
    simp only [List.mem_flatMap, List.mem_map, List.mem_range] at h
    obtain ⟨y, hy, z, hz, he⟩ := h
    exact ⟨y, z, hy, hz, he.symm⟩
  · rintro ⟨y, z, hy, hz, rfl⟩
    simp only [List.mem_flatMap, List.mem_map, List.mem_range]
    exact ⟨y, hy, z, hz, rfl⟩

lemma time_limits_sorted (tu : ℚ) :
    (time_limits tu).Pairwise (fun a b => a.1 ≤ b.1) := by
  unfold time_limits
  haveI : IsTotal (ℚ × ℕ × ℕ) (fun a b => a.1 ≤ b.1) :=
    ⟨fun a b => le_total a.1 b.1⟩
  haveI : IsTrans (ℚ × ℕ × ℕ) (fun a b => a.1 ≤ b.1) :=
    ⟨fun _ _ _ => le_trans⟩
  exact List.sorted_insertionSort _ _

lemma time_limits_length (tu : ℚ) : (time_limits tu).length = 128 := by
  unfold time_limits
  rw [(List.perm_insertionSort _ _).length_eq, List.length_flatMap]
  simp only [Function.comp_def, List.length_map, List.length_range]
  decide

lemma one_le_time_coeff (y z : ℕ) : (1 : ℚ) ≤ 2 ^ y * (1 + (z : ℚ) / 4) := by
  have h1 : (1 : ℚ) ≤ 2 ^ y := one_le_pow₀ (by norm_num)
  have h2 : (0 : ℚ) ≤ (z : ℚ) / 4 := by positivity
  nlinarith

lemma time_coeff_eq_one {y z : ℕ} (h : (2 : ℚ) ^ y * (1 + (z : ℚ) / 4) = 1) :
    y = 0 ∧ z = 0 := by
  have h2 : (0 : ℚ) ≤ (z : ℚ) / 4 := by positivity
  rcases y with _ | y
  · refine ⟨rfl, ?_⟩
    have hz4 : (z : ℚ) / 4 = 0 := by
      rw [pow_zero, one_mul] at h
      linarith
    have hz : (z : ℚ) = 0 := by linarith [hz4]
    exact_mod_cast hz
  · exfalso
    have h1 : (2 : ℚ) ≤ 2 ^ (y + 1) := by
      calc (2 : ℚ) = 2 ^ 1 := by norm_num
      _ ≤ 2 ^ (y + 1) := pow_le_pow_right₀ (by norm_num) (by omega)
    nlinarith

lemma base_mem_time_limits (tu : ℚ) : (tu, 0, 0) ∈ time_limits tu := by
  rw [mem_time_limits]
  refine ⟨0, 0, by norm_num, by norm_num, ?_⟩
  norm_num

lemma tu_le_time_limits {tu : ℚ} (htu : 0 < tu) {e : ℚ × ℕ × ℕ}
    (he : e ∈ time_limits tu) : tu ≤ e.1 := by
  obtain ⟨y, z, hy, hz, rfl⟩ := mem_time_limits.mp he
  have h1 := one_le_time_coeff y z
  nlinarith

lemma time_limits_le_max {tu : ℚ} (htu : 0 < tu) {e : ℚ × ℕ × ℕ}
    (he : e ∈ time_limits tu) : e.1 ≤ 2 ^ 31 * (7 / 4) * tu := by
  obtain ⟨y, z, hy, hz, rfl⟩ := mem_time_limits.mp he
  have h1 : (2 : ℚ) ^ y ≤ 2 ^ 31 := pow_le_pow_right₀ (by norm_num) (by omega)
  have h2 : (1 + (z : ℚ) / 4) ≤ 7 / 4 := by
    have hz3 : (z : ℚ) ≤ 3 := by exact_mod_cast Nat.lt_succ_iff.mp hz
    linarith
  have h3 : (2 : ℚ) ^ y * (1 + (z : ℚ) / 4) ≤ 2 ^ 31 * (7 / 4) :=
    mul_le_mul h1 h2 (by positivity) (by positivity)
  exact mul_le_mul_of_nonneg_right h3 htu.le

lemma find?_min_of_pairwise {p : ℚ × ℕ × ℕ → Bool} :
    ∀ {l : List (ℚ × ℕ × ℕ)}, l.Pairwise (fun a b => a.1 ≤ b.1) →
      ∀ {a}, l.find? p = some a → ∀ b ∈ l, p b = true → a.1 ≤ b.1 := by
  intro l
  induction l with
  | nil => intro _ a hf; simp at hf
  | cons hd tl ih =>
    intro hs a hf b hb hpb
    obtain ⟨hhd, hs'⟩ := List.pairwise_cons.mp hs
    by_cases hp : p hd = true
    · rw [List.find?_cons_of_pos _ hp] at hf
      injection hf with hf
      subst hf
      rcases List.mem_cons.mp hb with rfl | hb'
      · exact le_refl _
      · exact hhd b hb'
    · rw [List.find?_cons_of_neg _ hp] at hf
      rcases List.mem_cons.mp hb with rfl | hb'
      · exact absurd hpb hp
      · exact ih hs' hf b hb' hpb

lemma find?_head_of_all {p : ℚ × ℕ × ℕ → Bool} {l : List (ℚ × ℕ × ℕ)}
    (hall : ∀ x ∈ l, p x = true) : l.find? p = l.head? := by
  cases l with
  | nil => rfl
  | cons hd tl =>
    rw [List.find?_cons_of_pos _ (hall hd (List.mem_cons_self hd tl))]
    rfl

lemma time_limits_head {tu : ℚ} (htu : 0 < tu) :
    (time_limits tu).head? = some (tu, 0, 0) := by
  obtain ⟨hd, tl', hcons⟩ : ∃ hd tl', time_limits tu = hd :: tl' := by
    cases h : time_limits tu with
    | nil =>
      exfalso
      have hb := base_mem_time_limits tu
      rw [h] at hb
      simp at hb
    | cons a b => exact ⟨a, b, rfl⟩
  have hmem : hd ∈ time_limits tu := by
    rw [hcons]; exact List.mem_cons_self hd tl'
  have hge : tu ≤ hd.1 := tu_le_time_limits htu hmem
  have hle : hd.1 ≤ tu := by
    have hb := base_mem_time_limits tu
    rw [hcons] at hb
    rcases List.mem_cons.mp hb with heq | hb'
    · rw [← heq]
    · have hp := time_limits_sorted tu
      rw [hcons] at hp
      exact (List.pairwise_cons.mp hp).1 _ hb'
  have h1 : hd.1 = tu := le_antisymm hle hge
  obtain ⟨y, z, hy, hz, he⟩ := mem_time_limits.mp hmem
  have hcoeff : (2 : ℚ) ^ y * (1 + (z : ℚ) / 4) = 1 := by
    have hval : (2 : ℚ) ^ y * (1 + (z : ℚ) / 4) * tu = tu := by
      rw [he] at h1
      exact h1
    have := mul_right_cancel₀ (ne_of_gt htu)
      (by rw [hval, one_mul] : (2 : ℚ) ^ y * (1 + (z : ℚ) / 4) * tu = 1 * tu)
    exact this
  obtain ⟨rfl, rfl⟩ := time_coeff_eq_one hcoeff
  rw [hcons, he]
  norm_num

lemma quantize_some_min {tu d : ℚ} {y z : ℕ}
    (hq : quantize (time_limits tu) d = some (y, z)) :
    ∃ lim, (lim, y, z) ∈ time_limits tu ∧ d ≤ lim
      ∧ ∀ e ∈ time_limits tu, d ≤ e.1 → lim ≤ e.1 := by
  unfold quantize at hq
  cases hf : (time_limits tu).find? (fun e => decide (d ≤ e.1)) with
  | none => rw [hf] at hq; simp at hq
  | some a =>
    rw [hf] at hq
    simp only [Option.map_some'] at hq
    have hy : a.2.1 = y := congrArg Prod.fst (Option.some.inj hq)
    have hz : a.2.2 = z := congrArg Prod.snd (Option.some.inj hq)
    have ha : a = (a.1, y, z) := by rw [← hy, ← hz]
    refine ⟨a.1, ?_, ?_, ?_⟩
    · rw [← ha]
      exact List.mem_of_find?_eq_some hf
    · have := List.find?_some hf
      simpa using this
    · intro e he hde
      exact find?_min_of_pairwise (time_limits_sorted tu) hf e he
        (by simpa using hde)

lemma quantize_of_le_min {tu d : ℚ} (htu : 0 < tu) (hd : d ≤ tu) :
    quantize (time_limits tu) d = some (0, 0) := by
  unfold quantize
  have hall : ∀ x ∈ time_limits tu,
      (fun (e : ℚ × ℕ × ℕ) => decide (d ≤ e.1)) x = true := by
    intro x hx
    simp only [decide_eq_true_eq]
    exact le_trans hd (tu_le_time_limits htu hx)
  rw [find?_head_of_all hall, time_limits_head htu]
  rfl

lemma quantize_none_of_gt {tu d : ℚ} (htu : 0 < tu)
    (hd : 2 ^ 31 * (7 / 4) * tu < d) :
    quantize (time_limits tu) d = none := by
  unfold quantize
  rw [List.find?_eq_none.mpr]
  · rfl
  · intro x hx
    simp only [decide_eq_true_eq, not_le]
    exact lt_of_le_of_lt (time_limits_le_max htu hx) hd

/-! ## Claim theorems: time-window quantization -/

/-- C2: with a positive time unit, the 128-entry table quantization is a
ceiling match: a successful result is the `(y, z)` of a tabulated limit that
is at least the requested duration and minimal among all such limits; any
duration at or below the smallest entry (the time unit itself) yields
`(0, 0)`; and any duration above the largest tabulated limit
`2^31 · (7/4) · time_unit` makes the scan fail instead of returning an
entry. -/
theorem C2_quantize_ceiling (time_unit : ℚ) (htu : 0 < time_unit) (d : ℚ) :
    (time_limits time_unit).length = 128
    ∧ (∀ y z, quantize (time_limits time_unit) d = some (y, z) →
        ∃ lim, (lim, y, z) ∈ time_limits time_unit ∧ d ≤ lim
          ∧ ∀ e ∈ time_limits time_unit, d ≤ e.1 → lim ≤ e.1)
    ∧ (d ≤ time_unit → quantize (time_limits time_unit) d = some (0, 0))
    ∧ (2 ^ 31 * (7 / 4) * time_unit < d →
        quantize (time_limits time_unit) d = none) :=
  ⟨time_limits_length time_unit,
   fun _ _ hq => quantize_some_min hq,
   fun hd => quantize_of_le_min htu hd,
   fun hd => quantize_none_of_gt htu hd⟩

/-- C2 (witness): with time unit 1 the duration 1 (the smallest entry) is
quantized to `(0, 0)`. -/
theorem C2_quantize_ceiling_witness :
    quantize (time_limits 1) 1 = some (0, 0) :=
  (C2_quantize_ceiling 1 (by norm_num) 1).2.2.1 le_rfl

/-! ## Bit-level behaviour of the power-limit masking -/

lemma quantize_bounds {tu d : ℚ} {y z : ℕ}
    (hq : quantize (time_limits tu) d = some (y, z)) : y < 32 ∧ z < 4 := by
  obtain ⟨lim, hmem, -, -⟩ := quantize_some_min hq
  obtain ⟨y', z', hy, hz, he⟩ := mem_time_limits.mp hmem
  have h2 : y = y' := congrArg (fun p => p.2.1) he
  have h3 : z = z' := congrArg (fun p => p.2.2) he
  subst h2
  subst h3
  exact ⟨hy, hz⟩

lemma shiftLeft_lt_pow {x n k : ℕ} (hx : x < 2 ^ n) : x <<< k < 2 ^ (n + k) := by
  rw [Nat.shiftLeft_eq, pow_add]
  exact mul_lt_mul_of_pos_right hx (by positivity)

lemma testBit_shiftLeft_add (x o j : ℕ) :
    (x <<< o).testBit (o + j) = x.testBit j := by
  rw [Nat.testBit_shiftLeft]
  have h1 : decide (o + j ≥ o) = true := by simp
  have h2 : o + j - o = j := by omega
  rw [h1, h2, Bool.true_and]

/-! ## Claim theorems: the power-limit planner fields -/

/-- C3: the planner has no 15-bit overflow check (the TODO on src/main.rs
line 300): at power unit 1 W and tdp 65536 it computes `pl = 65536 = 2^16`,
returns a value instead of an `Overflow` error, and the excess bit lands in
bit 16 of the register — the clamp field adjacent to the power-limit field. -/
theorem C3_overflow_spills :
    do_mask 1 (time_limits 1) 65536 1 0 0 = some 98304
    ∧ Nat.testBit 98304 16 = true := by
  constructor
  · unfold do_mask
    rw [quantize_of_le_min (by norm_num) le_rfl]
    with_unfolding_all rfl
  · decide

/-- C9 (counterexample): the claim that the clamp bit at `offset + 16` is
cleared regardless of the seed fails: with seed `2^16` (clamp bit set), power
unit 1, tdp 8 W, duration 1 s at offset 0, the resulting value 98312 still
has bit 16 set. -/
theorem C9_clamp_cleared_cex :
    do_mask 1 (time_limits 1) 8 1 0 65536 = some 98312
    ∧ Nat.testBit (65536 : ℕ) 16 = true
    ∧ Nat.testBit (98312 : ℕ) 16 = true := by
  refine ⟨?_, by decide, by decide⟩
  unfold do_mask
  rw [quantize_of_le_min (by norm_num) le_rfl]
  with_unfolding_all rfl

/-- C9 (amended): the clear mask `0b111111100111111111111111` leaves the
enable bit (offset + 15) and the clamp bit (offset + 16) uncleared: whenever
`do_mask` succeeds with an in-range power limit (`pl < 2^15`), the clamp bit
of the result equals the clamp bit of the seed (it is retained, not forced to
zero), and the enable bit of the result is set. -/
theorem C9_clamp_retained (tu power_unit d : ℚ) (tdp offset acc v : ℕ)
    (hoff : offset = 0 ∨ offset = 32)
    (hpl : (round ((tdp : ℚ) / power_unit)).toNat < 2 ^ 15)
    (hdm : do_mask power_unit (time_limits tu) tdp d offset acc = some v) :
    v.testBit (offset + 16) = acc.testBit (offset + 16)
    ∧ v.testBit (offset + 15) = true := by
  have ho32 : offset ≤ 32 := by rcases hoff with h | h <;> omega
  unfold do_mask at hdm
  cases hq : quantize (time_limits tu) d with
  | none => rw [hq] at hdm; cases hdm
  | some yz =>
    obtain ⟨y, z⟩ := yz
    obtain ⟨hy32, hz4⟩ := quantize_bounds hq
    rw [hq] at hdm
    set pl : ℕ := (round ((tdp : ℚ) / power_unit)).toNat with hpl_def
    set tw : ℕ := y ||| (z <<< 5) with htw_def
    have hv : v = (acc &&& ((2 ^ 64 - 1)
          ^^^ ((0b111111100111111111111111 <<< offset) % 2 ^ 64)))
        ||| (((pl ||| (1 <<< 15) ||| (tw <<< 17)) <<< offset) % 2 ^ 64) :=
      (Option.some.inj hdm).symm
    have hP24 : (0b111111100111111111111111 : ℕ) < 2 ^ 24 := by norm_num
    have htw7 : tw < 2 ^ 7 := by
      rw [htw_def]
      exact Nat.or_lt_two_pow (lt_of_lt_of_le hy32 (by norm_num))
        (lt_of_lt_of_le (shiftLeft_lt_pow (show z < 2 ^ 2 from hz4)) (by norm_num))
    have hX24 : (pl ||| (1 <<< 15) ||| (tw <<< 17)) < 2 ^ 24 := by
      refine Nat.or_lt_two_pow (Nat.or_lt_two_pow ?_ (by decide)) ?_
      · exact lt_of_lt_of_le hpl (by norm_num)
      · exact lt_of_lt_of_le (shiftLeft_lt_pow htw7) (by norm_num)
    have hPmod : (0b111111100111111111111111 <<< offset) % 2 ^ 64
        = 0b111111100111111111111111 <<< offset :=
      Nat.mod_eq_of_lt (lt_of_lt_of_le (shiftLeft_lt_pow hP24)
        (Nat.pow_le_pow_right (by norm_num) (by omega)))
    have hXmod : ((pl ||| (1 <<< 15) ||| (tw <<< 17)) <<< offset) % 2 ^ 64
        = (pl ||| (1 <<< 15) ||| (tw <<< 17)) <<< offset :=
      Nat.mod_eq_of_lt (lt_of_lt_of_le (shiftLeft_lt_pow hX24)
        (Nat.pow_le_pow_right (by norm_num) (by omega)))
    rw [hPmod, hXmod] at hv
    constructor
    · rw [hv, Nat.testBit_or, Nat.testBit_and, Nat.testBit_xor]
      have e1 : Nat.testBit (2 ^ 64 - 1) (offset + 16) = true := by
        rw [Nat.testBit_two_pow_sub_one]
        have : offset + 16 < 64 := by omega
        simp [this]
      have e2 : Nat.testBit (0b111111100111111111111111 <<< offset)
          (offset + 16) = false := by
        rw [testBit_shiftLeft_add]
        decide
      have e3 : Nat.testBit ((pl ||| (1 <<< 15) ||| (tw <<< 17)) <<< offset)
          (offset + 16) = false := by
        rw [testBit_shiftLeft_add, Nat.testBit_or, Nat.testBit_or]
        have f1 : pl.testBit 16 = false :=
          Nat.testBit_lt_two_pow (lt_trans hpl (by norm_num))
        have f2 : Nat.testBit (1 <<< 15) 16 = false := by decide
        have f3 : Nat.testBit (tw <<< 17) 16 = false := by
          rw [Nat.testBit_shiftLeft]
          simp
        rw [f1, f2, f3]
        rfl
      rw [e1, e2, e3]
      simp
    · rw [hv, Nat.testBit_or]
      have e3 : Nat.testBit ((pl ||| (1 <<< 15) ||| (tw <<< 17)) <<< offset)
          (offset + 15) = true := by
        rw [testBit_shiftLeft_add, Nat.testBit_or, Nat.testBit_or]
        have f2 : Nat.testBit (1 <<< 15) 15 = true := by decide
        rw [f2]
        simp
      rw [e3]
      simp

/-- C9 (witness): the amended statement at the counterexample's input: the
result 98312 retains the seed's set clamp bit and has the enable bit set. -/
theorem C9_clamp_retained_witness :
    Nat.testBit (98312 : ℕ) 16 = Nat.testBit (65536 : ℕ) 16
    ∧ Nat.testBit (98312 : ℕ) 15 = true := by
  have h0 : Nat.testBit (98312 : ℕ) (0 + 16) = Nat.testBit (65536 : ℕ) (0 + 16)
      ∧ Nat.testBit (98312 : ℕ) (0 + 15) = true := by
    apply C9_clamp_retained 1 1 1 8 0 65536 98312 (Or.inl rfl)
    · with_unfolding_all decide
    · unfold do_mask
      rw [quantize_of_le_min (by norm_num) le_rfl]
      with_unfolding_all rfl
  exact h0

/-! ## Structure of the update list built by the planner -/

lemma temp_updates_fst {conf : ModeConfig} {r : ℕ → Except String ℕ}
    {tus : List (ℕ × ℕ)} (ht : temp_updates conf r = .ok tus) :
    ∀ p ∈ tus, p.1 = 0x1A2 := by
  unfold temp_updates at ht
  cases hmt : conf.maximum_temp_c with
  | none =>
    rw [hmt] at ht
    have : tus = [] := (Except.ok.inj ht).symm
    subst this
    intro p hp
    cases hp
  | some mt =>
    rw [hmt] at ht
    cases hr : r 0x1A2 with
    | error e => rw [hr] at ht; cases ht
    | ok m =>
      rw [hr] at ht
      have : tus = [(0x1A2, temp_new_value mt m)] := (Except.ok.inj ht).symm
      subst this
      intro p hp
      rw [List.mem_singleton.mp hp]

/-! ## Claim theorems: error propagation and write emission -/

/-- C4 (counterexample): the claim that no failure except a configuration
error terminates the program fails: a register read failure during planning
propagates out of `build_msr_updates` and is hit by `.unwrap()` in `main`
(src/main.rs line 67), panicking the process instead of skipping the write. -/
theorem C4_read_failure_terminates_cex :
    main_startup
        (.ok { battery := { maximum_temp_c := some 90 },
               ac := { maximum_temp_c := some 90 } })
        (fun _ => .error "read failed")
      = .panicked := rfl

/-- C4 (amended): a configuration read error returns cleanly, but a planning
failure for either mode (a failed register read, or an out-of-range duration
panicking the quantizer) panics the process: startup panics exactly when one
of the two `build_msr_updates` calls fails. Only at write-application time are
failures tolerated: every update in a batch is attempted regardless of
earlier write failures. -/
theorem C4_planning_failure_panics :
    (∀ (r : ℕ → Except String ℕ) (e : String),
      main_startup (.error e) r = .config_error)
    ∧ (∀ (c : Config) (r : ℕ → Except String ℕ),
        main_startup (.ok c) r = .panicked ↔
          ((∃ f, build_msr_updates c.battery r = .error f)
            ∨ (∃ f, build_msr_updates c.ac r = .error f)))
    ∧ (∀ (w : ℕ → ℕ → Except String Unit) (us : List (ℕ × ℕ)),
        (write_msr_updates w us).map Prod.fst = us.map Prod.fst) := by
  refine ⟨fun r e => rfl, fun c r => ?_, fun w us => ?_⟩
  · rcases hb : build_msr_updates c.battery r with fb | b
    · have hm : main_startup (.ok c) r = .panicked := by
        simp only [main_startup, hb]
      exact iff_of_true hm (Or.inl ⟨fb, rfl⟩)
    · rcases ha : build_msr_updates c.ac r with fa | a
      · have hm : main_startup (.ok c) r = .panicked := by
          simp only [main_startup, hb, ha]
        exact iff_of_true hm (Or.inr ⟨fa, rfl⟩)
      · have hm : main_startup (.ok c) r = .running b a := by
          simp only [main_startup, hb, ha]
        rw [hm]
        constructor
        · intro h
          cases h
        · rintro (⟨f, hf⟩ | ⟨f, hf⟩)
          · cases hf
          · cases hf
  · unfold write_msr_updates
    rw [List.map_map]
    rfl

/-- C4 (witness): a configuration error returns the graceful outcome. -/
theorem C4_planning_failure_panics_witness :
    main_startup (.error "bad config") (fun _ => .error "io") = .config_error :=
  C4_planning_failure_panics.1 (fun _ => .error "io") "bad config"

/-- C5 (counterexample): the claim that a pending write is emitted only when
the new value differs from the read value fails for the temperature register:
on a snapshot whose `0x1A2` value already equals what the planner computes
(critical 100, trip delta 10), the write `(0x1A2, old value)` is still
emitted — src/main.rs line 159 pushes unconditionally. -/
theorem C5_unchanged_temp_write_cex :
    regs_trip_already_set 0x1A2 = .ok ((10 <<< 24) ||| (100 <<< 16))
    ∧ build_msr_updates { maximum_temp_c := some 90 } regs_trip_already_set
        = .ok [(0x1A2, (10 <<< 24) ||| (100 <<< 16))] :=
  ⟨rfl, rfl⟩

/-- C5 (amended): the change check guards only the package power-limit
register: a `(0x610, v)` pair is emitted only when `v` differs from the value
read from `0x610`, while the `(0x1A2, ...)` pair is emitted whenever a
maximum temperature is configured and the read succeeds, without comparing
against the read value. -/
theorem C5_write_emission (conf : ModeConfig) (r : ℕ → Except String ℕ)
    (init : ℕ) (l : List (ℕ × ℕ))
    (h610 : r 0x610 = .ok init)
    (hb : build_msr_updates conf r = .ok l) :
    (∀ val, (0x610, val) ∈ l → val ≠ init)
    ∧ (∀ mt m, conf.maximum_temp_c = some mt → r 0x1A2 = .ok m →
        (0x1A2, temp_new_value mt m) ∈ l) := by
  unfold build_msr_updates at hb
  split at hb
  · cases hb
  rename_i tus ht
  split at hb
  · cases hb
  rename_i rapl h606
  split at hb
  · cases hb
  rename_i init' h610'
  split at hb
  · cases hb
  rename_i npl hnpl
  have hinit : init' = init := by
    rw [h610'] at h610
    exact Except.ok.inj h610
  rw [hinit] at hb
  have hl : l = tus ++ (if npl ≠ init then [(0x610, npl)] else []) :=
    (Except.ok.inj hb).symm
  constructor
  · intro val hmem
    rw [hl] at hmem
    rcases List.mem_append.mp hmem with hm | hm
    · exfalso
      have h2 := temp_updates_fst ht _ hm
      simp at h2
    · by_cases hne : npl ≠ init
      · rw [if_pos hne] at hm
        have hp := List.mem_singleton.mp hm
        have hval : val = npl := congrArg Prod.snd hp
        subst hval
        exact hne
      · rw [if_neg hne] at hm
        cases hm
  · intro mt m hmt hm1
    unfold temp_updates at ht
    rw [hmt, hm1] at ht
    have : tus = [(0x1A2, temp_new_value mt m)] := (Except.ok.inj ht).symm
    rw [hl, this]
    exact List.mem_append_left _ (List.mem_singleton.mpr rfl)

/-- C5 (witness): with a zero snapshot and only window 1 configured (10 W,
1 s), the emitted power-limit value 32778 differs from the seed 0. -/
theorem C5_write_emission_witness :
    build_msr_updates conf_pl1_only regs_zero = .ok [(0x610, 32778)]
    ∧ (32778 : ℕ) ≠ 0 := by
  have hdm : do_mask (1 / 2 ^ ((0 : ℕ) &&& 0b1111))
      (time_limits (1 / 2 ^ (((0 : ℕ) >>> 16) &&& 0b1111))) 10 1 0 0
      = some 32778 := by
    have harg1 : (1 / 2 ^ ((0 : ℕ) &&& 0b1111) : ℚ) = 1 := by norm_num
    have harg2 : (1 / 2 ^ (((0 : ℕ) >>> 16) &&& 0b1111) : ℚ) = 1 := by norm_num
    rw [harg1, harg2]
    unfold do_mask
    rw [quantize_of_le_min (by norm_num) le_rfl]
    with_unfolding_all rfl
  have hn : new_power_limit_value conf_pl1_only 0 0 = some 32778 := by
    have key : new_power_limit_value conf_pl1_only 0 0
        = match do_mask (1 / 2 ^ ((0 : ℕ) &&& 0b1111))
              (time_limits (1 / 2 ^ (((0 : ℕ) >>> 16) &&& 0b1111))) 10 1 0 0 with
          | none => none
          | some npl1 => apply_pl2 conf_pl1_only (1 / 2 ^ ((0 : ℕ) &&& 0b1111))
              (time_limits (1 / 2 ^ (((0 : ℕ) >>> 16) &&& 0b1111))) npl1 := rfl
    rw [key, hdm]
    rfl
  have hbuild : build_msr_updates conf_pl1_only regs_zero = .ok [(0x610, 32778)] := by
    have key : build_msr_updates conf_pl1_only regs_zero
        = match new_power_limit_value conf_pl1_only 0 0 with
          | none => .error .panicked
          | some npl => .ok ([] ++ (if npl ≠ 0 then [(0x610, npl)] else [])) := rfl
    rw [key, hn]
    rfl
  refine ⟨hbuild, ?_⟩
  exact (C5_write_emission conf_pl1_only regs_zero 0 [(0x610, 32778)] rfl hbuild).1
    32778 (by simp)

end Throttling
